import Mathlib

/-!
Shallow embedding of the SAM (State-Action-Model) state core of the todo
application in `src/app.js`, together with proofs of the specification's
claims about it.

The embedding models:
- JavaScript dynamic values arriving at the Store boundary (`JSVal`);
- `trimTitle` (src/app.js lines 35-37) including its non-string guard;
- the Store state (`state.todos`, `state.currentFilter`);
- every Store mutation (`addTodo`, `toggleTodo`, `deleteTodo`, `editTodo`,
  `setFilter`, `clearCompleted`), hydration (`load`) and persistence
  (`save`), and the derived queries (`getFilteredTodos`, counts).

Nondeterministic externals (crypto.randomUUID, Date.now, localStorage write
success) are passed as explicit parameters. localStorage contents for
`load` are modelled structurally: `JSON.parse` either throws (`corrupt`),
yields a non-array, or yields an array of element values, each of which is
either a non-object/falsy value or an object whose `id`/`title` fields may
or may not be strings.
-/

namespace TodoApp

/-- A JavaScript value arriving as the `title` argument of `addTodo` /
`editTodo`: a string, or one of the non-string shapes (`null`, `undefined`,
a number, a boolean). -/
inductive JSVal where
  | str (s : String)
  | null
  | undef
  | num (n : Int)
  | boolean (b : Bool)
deriving DecidableEq

/-- `typeof v === 'string'`. -/
def JSVal.isString : JSVal → Bool
  | .str _ => true
  | _ => false

/-- Whitespace predicate used by `String.prototype.trim`. -/
def isWs (c : Char) : Bool := c.isWhitespace

/-- Embedding of JavaScript `String.prototype.trim`: drop leading
whitespace, then drop trailing whitespace (implemented by reversing). -/
def trimStr (s : String) : String :=
  String.mk (((s.data.dropWhile isWs).reverse.dropWhile isWs).reverse)

/-- `trimTitle` (src/app.js lines 35-37):
`typeof title === 'string' ? title.trim() : ''`. -/
def trimTitle : JSVal → String
  | .str s => trimStr s
  | _ => ""

/-- A todo item as constructed by `addTodo` or adopted by `load`.
`createdAt` is `Option Int` because `load` keeps records whose `createdAt`
field is absent; the sort key defaults it to 0 (`b.createdAt || 0`). -/
structure Todo where
  id : String
  title : String
  completed : Bool
  createdAt : Option Int
deriving DecidableEq

/-- The Store state: `model.state` in src/app.js. -/
structure State where
  todos : List Todo
  currentFilter : String
deriving DecidableEq

/-- The initial state (src/app.js lines 49-52). -/
def defaultState : State := { todos := [], currentFilter := "all" }

/-- The three valid filter values (src/app.js lines 73 and 182). -/
def validFilters : List String := ["all", "active", "completed"]

/-- `model.addTodo` (src/app.js lines 102-119), state transition part.
`newId` is the value returned by `generateId()` and `now` the value
returned by `Date.now()`. Returns `none` exactly when the code returns
`null`. -/
def addTodoPure (s : State) (title : JSVal) (newId : String) (now : Int) :
    Option State :=
  let trimmed := trimTitle title
  if trimmed = "" ∨ trimmed.length > 500 then none
  else some { s with todos :=
    { id := newId, title := trimmed, completed := false,
      createdAt := some now } :: s.todos }

/-- The per-item arrow function of `toggleTodo`:
`t.id === id ? { ...t, completed: !t.completed } : t`. -/
def toggleItem (id : String) (t : Todo) : Todo :=
  if t.id == id then { t with completed := !t.completed } else t

/-- `model.toggleTodo` (src/app.js lines 126-137), state transition part. -/
def toggleTodoPure (s : State) (id : String) : Option State :=
  if (s.todos.findIdx? (fun t => t.id == id)).isNone then none
  else some { s with todos := s.todos.map (toggleItem id) }

/-- `model.deleteTodo` (src/app.js lines 144-152), state transition part. -/
def deleteTodoPure (s : State) (id : String) : Option State :=
  if (s.todos.findIdx? (fun t => t.id == id)).isNone then none
  else some { s with todos := s.todos.filter (fun t => !(t.id == id)) }

/-- The per-item arrow function of `editTodo`:
`t.id === id ? { ...t, title: trimmed } : t`. -/
def editItem (id : String) (trimmed : String) (t : Todo) : Todo :=
  if t.id == id then { t with title := trimmed } else t

/-- `model.editTodo` (src/app.js lines 160-174), state transition part:
title validated first, then existence of `id`. -/
def editTodoPure (s : State) (id : String) (newTitle : JSVal) :
    Option State :=
  let trimmed := trimTitle newTitle
  if trimmed = "" ∨ trimmed.length > 500 then none
  else if (s.todos.findIdx? (fun t => t.id == id)).isNone then none
  else some { s with todos := s.todos.map (editItem id trimmed) }

/-- `model.setFilter` (src/app.js lines 181-187), state transition part. -/
def setFilterPure (s : State) (filterType : String) : Option State :=
  if validFilters.contains filterType then
    some { s with currentFilter := filterType }
  else none

/-- `model.clearCompleted` (src/app.js lines 193-198), state transition
part; always succeeds. -/
def clearCompletedPure (s : State) : State :=
  { s with todos := s.todos.filter (fun t => !t.completed) }

/-- `model.getActiveCount` (src/app.js lines 204-206). -/
def getActiveCount (s : State) : Nat :=
  (s.todos.filter (fun t => !t.completed)).length

/-- `model.getCompletedCount` (src/app.js lines 212-214). -/
def getCompletedCount (s : State) : Nat :=
  (s.todos.filter (fun t => t.completed)).length

/-- `model.getFilteredTodos` (src/app.js lines 220-230): the `switch` on
`currentFilter` with `default` returning all todos. -/
def getFilteredTodos (s : State) : List Todo :=
  if s.currentFilter = "active" then s.todos.filter (fun t => !t.completed)
  else if s.currentFilter = "completed" then
    s.todos.filter (fun t => t.completed)
  else s.todos

/-- One element of the array produced by `JSON.parse` of the stored todos:
either a falsy/non-object value (fails the `t &&` check) or an object whose
`id` and `title` fields are strings (`some`) or not (`none`), with a
boolean `completed` and an optional numeric `createdAt`. -/
inductive RawElem where
  | nonObj
  | obj (id : Option String) (title : Option String) (completed : Bool)
      (createdAt : Option Int)
deriving DecidableEq

/-- Outcome of `JSON.parse` on the stored todos string: the parse throws
(`corrupt`), yields a non-array value, or yields an array of elements. -/
inductive StoredTodos where
  | corrupt
  | nonArray
  | arr (elems : List RawElem)
deriving DecidableEq

/-- The structural record check of `load` (src/app.js line 67):
`t && typeof t.id === 'string' && typeof t.title === 'string'`; survivors
become todos with their fields kept as stored. -/
def toTodo? : RawElem → Option Todo
  | .obj (some i) (some t) c ca =>
      some { id := i, title := t, completed := c, createdAt := ca }
  | _ => none

/-- Sort key of `load`'s comparator: `t.createdAt || 0`. -/
def createdKey (t : Todo) : Int := t.createdAt.getD 0

/-- The descending-`createdAt` order realized by the comparator
`(a, b) => (b.createdAt || 0) - (a.createdAt || 0)`. -/
def descCreated (a b : Todo) : Prop := createdKey b ≤ createdKey a

instance : DecidableRel descCreated := fun a b => by
  unfold descCreated; infer_instance

/-- The filter-then-sort pipeline of `load` (src/app.js lines 65-69):
keep structurally valid records, sort (stably) by `createdAt` descending. -/
def hydrateTodos (elems : List RawElem) : List Todo :=
  (elems.filterMap toTodo?).insertionSort descCreated

/-- The filter-adoption step of `load` (src/app.js lines 73-75):
`if (filter && ['all','active','completed'].includes(filter))`. -/
def adoptFilter (storedFilter : Option String) (cur : String) : String :=
  match storedFilter with
  | some f => if (f != "") && validFilters.contains f then f else cur
  | none => cur

/-- `model.load` (src/app.js lines 57-81). `storedTodos` is the value under
the todos key (`none` = key absent) and `storedFilter` the value under the
filter key. A parse exception jumps to the `catch` block, which resets both
components to the defaults; otherwise todos are replaced only when the
parsed value is an array, and the filter is adopted only when valid. -/
def load (storedTodos : Option StoredTodos) (storedFilter : Option String)
    (s : State) : State :=
  match storedTodos with
  | some .corrupt => { todos := [], currentFilter := "all" }
  | some .nonArray =>
      { todos := s.todos,
        currentFilter := adoptFilter storedFilter s.currentFilter }
  | some (.arr elems) =>
      { todos := hydrateTodos elems,
        currentFilter := adoptFilter storedFilter s.currentFilter }
  | none =>
      { todos := s.todos,
        currentFilter := adoptFilter storedFilter s.currentFilter }

/-- The durable storage visible to the Store: the two localStorage keys,
holding the last successfully written values (structurally, since
serialization is injective on well-formed data). `none` = never written. -/
structure Storage where
  todosKey : Option (List Todo)
  filterKey : Option String
deriving DecidableEq

/-- The model object: in-memory state plus durable storage. -/
structure Model where
  state : State
  storage : Storage
deriving DecidableEq

/-- `model.save` (src/app.js lines 87-95): `this.state = newState` happens
first; then the two `setItem` writes are attempted inside `try`. `ok1`/`ok2`
say whether each write succeeds; an exception in the first skips the
second, and every exception is caught. -/
def save (m : Model) (newState : State) (ok1 ok2 : Bool) : Model :=
  { state := newState,
    storage :=
      if ok1 then
        if ok2 then
          { todosKey := some newState.todos,
            filterKey := some newState.currentFilter }
        else
          { todosKey := some newState.todos,
            filterKey := m.storage.filterKey }
      else m.storage }

/-- `model.addTodo` at the model level: on rejection, returns `null` before
any mutation; on success, calls `save` and returns the new state. -/
def addTodoM (m : Model) (title : JSVal) (newId : String) (now : Int)
    (ok1 ok2 : Bool) : Model × Option State :=
  match addTodoPure m.state title newId now with
  | none => (m, none)
  | some ns => (save m ns ok1 ok2, some ns)

/-- `model.toggleTodo` at the model level. -/
def toggleTodoM (m : Model) (id : String) (ok1 ok2 : Bool) :
    Model × Option State :=
  match toggleTodoPure m.state id with
  | none => (m, none)
  | some ns => (save m ns ok1 ok2, some ns)

/-- `model.deleteTodo` at the model level. -/
def deleteTodoM (m : Model) (id : String) (ok1 ok2 : Bool) :
    Model × Option State :=
  match deleteTodoPure m.state id with
  | none => (m, none)
  | some ns => (save m ns ok1 ok2, some ns)

/-- `model.editTodo` at the model level. -/
def editTodoM (m : Model) (id : String) (newTitle : JSVal) (ok1 ok2 : Bool) :
    Model × Option State :=
  match editTodoPure m.state id newTitle with
  | none => (m, none)
  | some ns => (save m ns ok1 ok2, some ns)

/-- `model.setFilter` at the model level. -/
def setFilterM (m : Model) (filterType : String) (ok1 ok2 : Bool) :
    Model × Option State :=
  match setFilterPure m.state filterType with
  | none => (m, none)
  | some ns => (save m ns ok1 ok2, some ns)

/-- `model.clearCompleted` at the model level; never rejects. -/
def clearCompletedM (m : Model) (ok1 ok2 : Bool) : Model × State :=
  let ns := clearCompletedPure m.state
  (save m ns ok1 ok2, ns)

/-- One Store operation together with its nondeterministic external inputs
(generated id, clock reading, stored data for hydrate). -/
inductive Op where
  | add (title : JSVal) (newId : String) (now : Int)
  | toggle (id : String)
  | remove (id : String)
  | edit (id : String) (title : JSVal)
  | setF (f : String)
  | clear
  | hydrate (storedTodos : Option StoredTodos) (storedFilter : Option String)

/-- Effect of an operation on the Store state: a rejected operation leaves
the state as it was. -/
def applyOp (s : State) : Op → State
  | .add title newId now => (addTodoPure s title newId now).getD s
  | .toggle id => (toggleTodoPure s id).getD s
  | .remove id => (deleteTodoPure s id).getD s
  | .edit id title => (editTodoPure s id title).getD s
  | .setF f => (setFilterPure s f).getD s
  | .clear => clearCompletedPure s
  | .hydrate st sf => load st sf s

/-- The state reached from the empty default by a sequence of operations. -/
def run (ops : List Op) : State := ops.foldl applyOp defaultState

/-- The spec's title invariant for a single title string: non-empty after
trimming (hence not whitespace-only) and at most 500 characters long. -/
def ValidTitle (t : String) : Prop := trimStr t ≠ "" ∧ t.length ≤ 500

instance : DecidablePred ValidTitle := fun t => by
  unfold ValidTitle; infer_instance

/-- The spec's title invariant over a Store state. -/
def Inv (s : State) : Prop := ∀ t ∈ s.todos, ValidTitle t.title

instance (s : State) : Decidable (Inv s) := by
  unfold Inv; infer_instance

/-- An empty model: default state, nothing ever written to storage. -/
def mEmpty : Model :=
  { state := defaultState, storage := { todosKey := none, filterKey := none } }

/-! ### Helper lemmas about trimming and searching -/

theorem mem_of_mem_dropWhile {α : Type} {p : α → Bool} {l : List α} {x : α}
    (h : x ∈ l.dropWhile p) : x ∈ l := by
  rw [← List.takeWhile_append_dropWhile p l]
  exact List.mem_append_right _ h

theorem dropWhile_forall_iff {α : Type} (p : α → Bool) (l : List α) :
    (∀ x ∈ l.dropWhile p, p x = true) ↔ ∀ x ∈ l, p x = true := by
  constructor
  · intro h x hx
    rw [← List.takeWhile_append_dropWhile p l] at hx
    rcases List.mem_append.mp hx with h1 | h2
    · exact List.mem_takeWhile_imp h1
    · exact h x h2
  · intro h x hx
    exact h x (mem_of_mem_dropWhile hx)

theorem mem_dropWhile_of_not {α : Type} {p : α → Bool} {l : List α} {c : α}
    (hc : c ∈ l) (hp : p c = false) : c ∈ l.dropWhile p := by
  rw [← List.takeWhile_append_dropWhile p l] at hc
  rcases List.mem_append.mp hc with h1 | h2
  · have := List.mem_takeWhile_imp h1
    rw [hp] at this
    exact absurd this (by simp)
  · exact h2

/-- `trim` produces the empty string exactly when the input is all
whitespace (in particular when it is empty). -/
theorem trimStr_eq_empty_iff (s : String) :
    trimStr s = "" ↔ ∀ c ∈ s.data, isWs c = true := by
  unfold trimStr
  constructor
  · intro h c hc
    have hdata : ((s.data.dropWhile isWs).reverse.dropWhile isWs).reverse = [] :=
      congrArg String.data h
    rw [List.reverse_eq_nil_iff, List.dropWhile_eq_nil_iff] at hdata
    have hall : ∀ x ∈ s.data.dropWhile isWs, isWs x = true := by
      intro x hx
      exact hdata x (List.mem_reverse.mpr hx)
    exact (dropWhile_forall_iff isWs s.data).mp hall c hc
  · intro h
    have hnil : ((s.data.dropWhile isWs).reverse.dropWhile isWs).reverse = [] := by
      rw [List.reverse_eq_nil_iff, List.dropWhile_eq_nil_iff]
      intro x hx
      exact h x (mem_of_mem_dropWhile (List.mem_reverse.mp hx))
    rw [hnil]

/-- A non-whitespace character of `s` survives trimming. -/
theorem mem_trimStr {s : String} {c : Char} (hc : c ∈ s.data)
    (hp : isWs c = false) : c ∈ (trimStr s).data := by
  show c ∈ ((s.data.dropWhile isWs).reverse.dropWhile isWs).reverse
  rw [List.mem_reverse]
  exact mem_dropWhile_of_not (List.mem_reverse.mpr (mem_dropWhile_of_not hc hp)) hp

/-- The output of a non-trivial trim is itself non-trivial under trim:
this is what makes titles stored by the Store satisfy the invariant. -/
theorem trimStr_trim_ne {s : String} (h : trimStr s ≠ "") :
    trimStr (trimStr s) ≠ "" := by
  intro hc
  apply h
  rw [trimStr_eq_empty_iff]
  intro c hcs
  by_contra hws
  rw [Bool.not_eq_true] at hws
  have hmem : c ∈ (trimStr s).data := mem_trimStr hcs hws
  have htrue := (trimStr_eq_empty_iff (trimStr s)).mp hc c hmem
  rw [htrue] at hws
  exact absurd hws (by simp)

theorem validTitle_trimStr {raw : String} (h1 : trimStr raw ≠ "")
    (h2 : (trimStr raw).length ≤ 500) : ValidTitle (trimStr raw) :=
  ⟨trimStr_trim_ne h1, h2⟩

theorem validTitle_trimTitle {v : JSVal} (h1 : trimTitle v ≠ "")
    (h2 : (trimTitle v).length ≤ 500) : ValidTitle (trimTitle v) := by
  cases v with
  | str s => exact validTitle_trimStr h1 h2
  | null => exact absurd rfl h1
  | undef => exact absurd rfl h1
  | num n => exact absurd rfl h1
  | boolean b => exact absurd rfl h1

/-- `findIndex(...) === -1` is false when a matching item exists. -/
theorem findIdx_isNone_false {l : List Todo} {id : String}
    (h : ∃ t ∈ l, t.id = id) :
    (l.findIdx? (fun t => t.id == id)).isNone = false := by
  have hs : (l.findIdx? (fun t => t.id == id)).isSome = true := by
    rw [List.findIdx?_isSome, List.any_eq_true]
    obtain ⟨t, ht, hid⟩ := h
    exact ⟨t, ht, by simp [hid]⟩
  obtain ⟨a, ha⟩ := Option.isSome_iff_exists.mp hs
  rw [ha]
  rfl

/-! ### Claim theorems -/

/-- C6: for every stored filter value (valid or not), hydrating from the
empty default when the stored todos value fails to parse yields the empty
default state; the `catch` block resets both components and no fault
escapes (`load` is a total function). -/
theorem corrupt_data_recovery (storedFilter : Option String) :
    load (some .corrupt) storedFilter defaultState = defaultState := rfl

/-- C10: a non-string `title` argument (null, undefined, number, boolean)
is normalized to `""` by `trimTitle`, so `addTodo` and `editTodo` reject it
and leave the model (state and storage) unchanged instead of throwing —
the embedding is a total function precisely because the `typeof` guard
removes the only would-be fault. -/
theorem nonstring_title_rejected (m : Model) (v : JSVal) (newId : String)
    (now : Int) (id : String) (ok1 ok2 : Bool) (h : v.isString = false) :
    trimTitle v = "" ∧ addTodoM m v newId now ok1 ok2 = (m, none) ∧
      editTodoM m id v ok1 ok2 = (m, none) := by
  cases v with
  | str s => simp [JSVal.isString] at h
  | null => exact ⟨rfl, rfl, rfl⟩
  | undef => exact ⟨rfl, rfl, rfl⟩
  | num n => exact ⟨rfl, rfl, rfl⟩
  | boolean b => exact ⟨rfl, rfl, rfl⟩

/-- Witness for C10: the claim applied to `title = null` on the empty
model. -/
theorem nonstring_title_rejected_witness :
    trimTitle .null = "" ∧
      addTodoM mEmpty .null "id1" 0 true true = (mEmpty, none) ∧
      editTodoM mEmpty "x" .null true true = (mEmpty, none) :=
  nonstring_title_rejected mEmpty .null "id1" 0 "x" true true rfl

/-- C3: when the trimmed title is non-empty and at most 500 characters,
`addTodo` succeeds and returns the old state with exactly one new item
prepended, carrying the trimmed title, `completed = false`, the current
clock reading as `createdAt`, and the freshly generated id; the
pre-existing items and the current filter are unchanged. -/
theorem create_postcondition (s : State) (title : JSVal) (newId : String)
    (now : Int) (h1 : trimTitle title ≠ "")
    (h2 : (trimTitle title).length ≤ 500) :
    addTodoPure s title newId now =
      some { todos := { id := newId, title := trimTitle title,
                        completed := false, createdAt := some now } :: s.todos,
             currentFilter := s.currentFilter } := by
  have hg : ¬ (trimTitle title = "" ∨ (trimTitle title).length > 500) := by
    push_neg
    exact ⟨h1, by omega⟩
  simp only [addTodoPure]
  rw [if_neg hg]

/-- Witness for C3: creating " Buy milk " in the empty state. -/
theorem create_postcondition_witness :
    addTodoPure defaultState (.str " Buy milk ") "id1" 42 =
      some { todos := [{ id := "id1", title := "Buy milk",
                         completed := false, createdAt := some 42 }],
             currentFilter := "all" } :=
  (create_postcondition defaultState (.str " Buy milk ") "id1" 42
    (by decide) (by decide)).trans (by decide)

/-- C9: for every state, the `active` view and the `completed` view
together are a permutation of the `all` view, and no item occurs in both. -/
theorem filter_partition (s : State) :
    (getFilteredTodos { s with currentFilter := "active" } ++
        getFilteredTodos { s with currentFilter := "completed" }).Perm
      (getFilteredTodos { s with currentFilter := "all" }) ∧
    ∀ t, t ∈ getFilteredTodos { s with currentFilter := "active" } →
      t ∉ getFilteredTodos { s with currentFilter := "completed" } := by
  have hact : getFilteredTodos { s with currentFilter := "active" } =
      s.todos.filter (fun t => !t.completed) := rfl
  have hcomp : getFilteredTodos { s with currentFilter := "completed" } =
      s.todos.filter (fun t => t.completed) := rfl
  have hall : getFilteredTodos { s with currentFilter := "all" } = s.todos := rfl
  rw [hact, hcomp, hall]
  constructor
  · have h := List.filter_append_perm (fun t => !t.completed) s.todos
    simp only [Bool.not_not] at h
    exact h
  · intro t h1 h2
    have e1 := (List.mem_filter.mp h1).2
    have e2 := (List.mem_filter.mp h2).2
    simp only [Bool.not_eq_true'] at e1
    rw [e1] at e2
    exact absurd e2 (by simp)

/-- C1: every rejecting path of every rejectable Store operation returns
the rejection signal before mutating anything: the model (in-memory state
and durable storage alike, hence no persistence write) is exactly what it
was before the call. -/
theorem rejection_atomicity (m : Model) :
    (∀ title newId now ok1 ok2,
        (addTodoM m title newId now ok1 ok2).2 = none →
        (addTodoM m title newId now ok1 ok2).1 = m) ∧
    (∀ id ok1 ok2, (toggleTodoM m id ok1 ok2).2 = none →
        (toggleTodoM m id ok1 ok2).1 = m) ∧
    (∀ id ok1 ok2, (deleteTodoM m id ok1 ok2).2 = none →
        (deleteTodoM m id ok1 ok2).1 = m) ∧
    (∀ id title ok1 ok2, (editTodoM m id title ok1 ok2).2 = none →
        (editTodoM m id title ok1 ok2).1 = m) ∧
    (∀ f ok1 ok2, (setFilterM m f ok1 ok2).2 = none →
        (setFilterM m f ok1 ok2).1 = m) := by
  refine ⟨?_, ?_, ?_, ?_, ?_⟩
  · intro title newId now ok1 ok2
    unfold addTodoM
    cases h : addTodoPure m.state title newId now with
    | none => intro _; rfl
    | some ns => intro hc; exact absurd hc (by simp)
  · intro id ok1 ok2
    unfold toggleTodoM
    cases h : toggleTodoPure m.state id with
    | none => intro _; rfl
    | some ns => intro hc; exact absurd hc (by simp)
  · intro id ok1 ok2
    unfold deleteTodoM
    cases h : deleteTodoPure m.state id with
    | none => intro _; rfl
    | some ns => intro hc; exact absurd hc (by simp)
  · intro id title ok1 ok2
    unfold editTodoM
    cases h : editTodoPure m.state id title with
    | none => intro _; rfl
    | some ns => intro hc; exact absurd hc (by simp)
  · intro f ok1 ok2
    unfold setFilterM
    cases h : setFilterPure m.state f with
    | none => intro _; rfl
    | some ns => intro hc; exact absurd hc (by simp)

/-- Witness for C1: an empty-title `addTodo` on the empty model rejects
and leaves the model untouched. -/
theorem rejection_atomicity_witness :
    (addTodoM mEmpty (.str "   ") "id1" 0 true true).1 = mEmpty :=
  (rejection_atomicity mEmpty).1 (.str "   ") "id1" 0 true true (by decide)

/-- C7: `save` replaces the in-memory state by `newState` whether or not
the durable writes succeed (a failing first write also leaves storage
untouched), and every mutating operation that reaches `save` still returns
the new state when the write fails; no exception escapes (`save` is total
because the `try`/`catch` swallows the write fault). -/
theorem persistence_failure_nonfatal (m : Model) (ns : State) (ok2 : Bool) :
    (save m ns false ok2).state = ns ∧
    (save m ns true false).state = ns ∧
    (save m ns false ok2).storage = m.storage ∧
    (∀ title newId now, addTodoPure m.state title newId now = some ns →
        addTodoM m title newId now false ok2 = (save m ns false ok2, some ns)) ∧
    (∀ id, toggleTodoPure m.state id = some ns →
        toggleTodoM m id false ok2 = (save m ns false ok2, some ns)) ∧
    (∀ id, deleteTodoPure m.state id = some ns →
        deleteTodoM m id false ok2 = (save m ns false ok2, some ns)) ∧
    (∀ id title, editTodoPure m.state id title = some ns →
        editTodoM m id title false ok2 = (save m ns false ok2, some ns)) ∧
    (∀ f, setFilterPure m.state f = some ns →
        setFilterM m f false ok2 = (save m ns false ok2, some ns)) ∧
    (clearCompletedPure m.state = ns →
        clearCompletedM m false ok2 = (save m ns false ok2, ns)) := by
  refine ⟨rfl, rfl, rfl, ?_, ?_, ?_, ?_, ?_, ?_⟩
  · intro title newId now h
    unfold addTodoM
    rw [h]
  · intro id h
    unfold toggleTodoM
    rw [h]
  · intro id h
    unfold deleteTodoM
    rw [h]
  · intro id title h
    unfold editTodoM
    rw [h]
  · intro f h
    unfold setFilterM
    rw [h]
  · intro h
    subst h
    rfl

/-- The one-item state reached by adding "A" to the empty default, used to
instantiate the persistence-failure claim. -/
def stA : State :=
  { todos := [{ id := "i", title := "A", completed := false, createdAt := some 0 }],
    currentFilter := "all" }

/-- Witness for C7: adding "A" to the empty model with a failing first
write still returns the new one-item state, and that state is in memory. -/
theorem persistence_failure_nonfatal_witness :
    (save mEmpty stA false true).state = stA ∧
    addTodoM mEmpty (.str "A") "i" 0 false true =
      (save mEmpty stA false true, some stA) :=
  ⟨(persistence_failure_nonfatal mEmpty stA true).1,
   (persistence_failure_nonfatal mEmpty stA true).2.2.2.1
      (.str "A") "i" 0 (by decide)⟩

/-- Two-item state (one active, one completed) for the filter-partition
witness. -/
def stP : State :=
  { todos := [{ id := "a", title := "x", completed := false, createdAt := none },
              { id := "b", title := "y", completed := true, createdAt := none }],
    currentFilter := "all" }

/-- Witness for C9: in a concrete two-item state, the active item is in the
active view and therefore not in the completed view. -/
theorem filter_partition_witness :
    ({ id := "a", title := "x", completed := false, createdAt := none } : Todo) ∉
      getFilteredTodos { stP with currentFilter := "completed" } :=
  (filter_partition stP).2
    { id := "a", title := "x", completed := false, createdAt := none } (by decide)

/-- C8: toggling an existing id twice returns exactly the original state:
the toggled item's `completed` flag is back to its original value and every
field of every item (and the filter) is unchanged. -/
theorem toggle_involution (s : State) (id : String)
    (h : ∃ t ∈ s.todos, t.id = id) :
    ∃ s1, toggleTodoPure s id = some s1 ∧ toggleTodoPure s1 id = some s := by
  have hn : (s.todos.findIdx? (fun t => t.id == id)).isNone = false :=
    findIdx_isNone_false h
  have hf : ∀ t : Todo, toggleItem id (toggleItem id t) = t := by
    intro t
    cases t with
    | mk tid ttitle tc tca =>
      cases hc : (tid == id) with
      | false => simp [toggleItem, hc]
      | true => simp [toggleItem, hc]
  have hfid : ∀ t : Todo, (toggleItem id t).id = t.id := by
    intro t
    cases hc : (t.id == id) with
    | false => simp [toggleItem, hc]
    | true => simp [toggleItem, hc]
  have e1 : toggleTodoPure s id =
      some { s with todos := s.todos.map (toggleItem id) } := by
    unfold toggleTodoPure
    rw [hn]
    rfl
  refine ⟨_, e1, ?_⟩
  have h2 : ∃ t ∈ s.todos.map (toggleItem id), t.id = id := by
    obtain ⟨t, ht, hid⟩ := h
    exact ⟨_, List.mem_map_of_mem _ ht, by rw [hfid t]; exact hid⟩
  have hn2 := findIdx_isNone_false h2
  have e2 : (s.todos.map (toggleItem id)).map (toggleItem id) = s.todos := by
    rw [List.map_map]
    calc s.todos.map (toggleItem id ∘ toggleItem id)
        = s.todos.map (fun t => t) := List.map_congr_left (fun a _ => hf a)
      _ = s.todos := List.map_id' s.todos
  unfold toggleTodoPure
  rw [hn2]
  show some { s with todos := (s.todos.map (toggleItem id)).map (toggleItem id) } = some s
  rw [e2]

/-- One-item state used as the toggle-involution witness. -/
def stT : State :=
  { todos := [{ id := "a", title := "x", completed := false, createdAt := none }],
    currentFilter := "all" }

/-- Witness for C8: toggling "a" twice in a concrete one-item state
round-trips to the original state. -/
theorem toggle_involution_witness :
    ∃ s1, toggleTodoPure stT "a" = some s1 ∧ toggleTodoPure s1 "a" = some stT :=
  toggle_involution stT "a" (by decide)

/-- C4: a title whose trimmed form has exactly 500 characters is accepted
by both `addTodo` and (for an existing id) `editTodo`; a trimmed title of
501 characters is rejected by both and the model is unchanged. -/
theorem validation_boundary (m : Model) (title500 title501 : JSVal)
    (id : String) (ok1 ok2 : Bool)
    (h500 : (trimTitle title500).length = 500)
    (h501 : (trimTitle title501).length = 501) :
    (∀ newId now, (addTodoM m title500 newId now ok1 ok2).2.isSome = true) ∧
    ((∃ t ∈ m.state.todos, t.id = id) →
        (editTodoM m id title500 ok1 ok2).2.isSome = true) ∧
    (∀ newId now, addTodoM m title501 newId now ok1 ok2 = (m, none)) ∧
    editTodoM m id title501 ok1 ok2 = (m, none) := by
  have hg500 : ¬ (trimTitle title500 = "" ∨ (trimTitle title500).length > 500) := by
    push_neg
    constructor
    · intro he
      rw [he] at h500
      simp at h500
    · omega
  have hg501 : trimTitle title501 = "" ∨ (trimTitle title501).length > 500 :=
    Or.inr (by omega)
  refine ⟨?_, ?_, ?_, ?_⟩
  · intro newId now
    unfold addTodoM
    simp only [addTodoPure]
    rw [if_neg hg500]
    rfl
  · intro hex
    unfold editTodoM
    simp only [editTodoPure]
    rw [if_neg hg500, findIdx_isNone_false hex]
    rfl
  · intro newId now
    unfold addTodoM
    simp only [addTodoPure]
    rw [if_pos hg501]
  · unfold editTodoM
    simp only [editTodoPure]
    rw [if_pos hg501]

/-- The model holding exactly `stA`, used at the validation boundary. -/
def mA : Model := { state := stA, storage := { todosKey := none, filterKey := none } }

set_option maxRecDepth 4000 in
/-- Witness for C4: concrete 500- and 501-character titles against the
one-item model (item id "i"). -/
theorem validation_boundary_witness :
    (addTodoM mA (.str (String.mk (List.replicate 500 'a'))) "j" 1 true true).2.isSome = true ∧
    (editTodoM mA "i" (.str (String.mk (List.replicate 500 'a'))) true true).2.isSome = true ∧
    addTodoM mA (.str (String.mk (List.replicate 501 'a'))) "j" 1 true true = (mA, none) :=
  ⟨(validation_boundary mA (.str (String.mk (List.replicate 500 'a')))
      (.str (String.mk (List.replicate 501 'a'))) "i" true true
      (by decide) (by decide)).1 "j" 1,
   (validation_boundary mA (.str (String.mk (List.replicate 500 'a')))
      (.str (String.mk (List.replicate 501 'a'))) "i" true true
      (by decide) (by decide)).2.1 (by decide),
   (validation_boundary mA (.str (String.mk (List.replicate 500 'a')))
      (.str (String.mk (List.replicate 501 'a'))) "i" true true
      (by decide) (by decide)).2.2.1 "j" 1⟩

instance : IsTotal Todo descCreated :=
  ⟨fun a b => le_total (createdKey b) (createdKey a)⟩

instance : IsTrans Todo descCreated :=
  ⟨fun _ _ _ hab hbc => le_trans hbc hab⟩

/-- C5: hydrating a parseable array keeps exactly the records with a
string id and a string title (each other record is dropped individually —
`toTodo?` is that per-record structural check), orders the survivors by
`createdAt` descending (missing `createdAt` counts as 0, as in the
comparator `(b.createdAt || 0) - (a.createdAt || 0)`), and adopts the
stored filter exactly when it is one of the three valid values, keeping
"all" otherwise. -/
theorem hydrate_postcondition (elems : List RawElem) (storedFilter : Option String) :
    (load (some (.arr elems)) storedFilter defaultState).todos.Perm
        (elems.filterMap toTodo?) ∧
    List.Sorted descCreated (load (some (.arr elems)) storedFilter defaultState).todos ∧
    (load (some (.arr elems)) storedFilter defaultState).currentFilter =
      (match storedFilter with
       | some f => if f ∈ validFilters then f else "all"
       | none => "all") := by
  refine ⟨List.perm_insertionSort descCreated _,
          List.sorted_insertionSort descCreated _, ?_⟩
  show adoptFilter storedFilter "all" = _
  cases storedFilter with
  | none => rfl
  | some f =>
    show (if (f != "") && validFilters.contains f then f else "all") =
        if f ∈ validFilters then f else "all"
    by_cases hf : f ∈ validFilters
    · have := hf
      simp only [validFilters, List.mem_cons, List.not_mem_nil, or_false] at this
      rcases this with h | h | h <;> subst h <;> rfl
    · rw [if_neg hf]
      have hc : validFilters.contains f = false := by
        by_contra hcc
        rw [Bool.not_eq_false] at hcc
        exact hf (by simpa using hcc)
      rw [hc, Bool.and_false]
      rfl

/-- An operation is "safe" when any hydrated record it adopts carries a
title satisfying the invariant; every non-hydrate operation is safe, and a
hydrate is safe when each surviving stored record has a valid title. This
is the side condition the amended C2 needs: the code's `load` checks only
that `id` and `title` are strings, not that the title is valid. -/
def SafeOp : Op → Prop
  | .hydrate (some (.arr elems)) _ =>
      ∀ e ∈ elems, ∀ t, toTodo? e = some t → ValidTitle t.title
  | _ => True

theorem inv_applyOp {s : State} {op : Op} (hs : Inv s) (hop : SafeOp op) :
    Inv (applyOp s op) := by
  cases op with
  | add title newId now =>
    show Inv ((addTodoPure s title newId now).getD s)
    by_cases hg : trimTitle title = "" ∨ (trimTitle title).length > 500
    · simp only [addTodoPure, if_pos hg, Option.getD_none]
      exact hs
    · simp only [addTodoPure, if_neg hg, Option.getD_some]
      intro t ht
      rcases List.mem_cons.mp ht with h | h
      · subst h
        push_neg at hg
        exact validTitle_trimTitle hg.1 (by omega)
      · exact hs t h
  | toggle id =>
    show Inv ((toggleTodoPure s id).getD s)
    by_cases hn : (s.todos.findIdx? (fun t => t.id == id)).isNone = true
    · simp only [toggleTodoPure, if_pos hn, Option.getD_none]
      exact hs
    · simp only [toggleTodoPure, if_neg hn, Option.getD_some]
      intro t ht
      obtain ⟨t0, ht0, rfl⟩ := List.mem_map.mp ht
      have he : (toggleItem id t0).title = t0.title := by
        cases hc : (t0.id == id) <;> simp [toggleItem, hc]
      rw [he]
      exact hs t0 ht0
  | remove id =>
    show Inv ((deleteTodoPure s id).getD s)
    by_cases hn : (s.todos.findIdx? (fun t => t.id == id)).isNone = true
    · simp only [deleteTodoPure, if_pos hn, Option.getD_none]
      exact hs
    · simp only [deleteTodoPure, if_neg hn, Option.getD_some]
      intro t ht
      exact hs t (List.mem_filter.mp ht).1
  | edit id title =>
    show Inv ((editTodoPure s id title).getD s)
    by_cases hg : trimTitle title = "" ∨ (trimTitle title).length > 500
    · simp only [editTodoPure, if_pos hg, Option.getD_none]
      exact hs
    · by_cases hn : (s.todos.findIdx? (fun t => t.id == id)).isNone = true
      · simp only [editTodoPure, if_neg hg, if_pos hn, Option.getD_none]
        exact hs
      · simp only [editTodoPure, if_neg hg, if_neg hn, Option.getD_some]
        intro t ht
        obtain ⟨t0, ht0, rfl⟩ := List.mem_map.mp ht
        push_neg at hg
        have he : (editItem id (trimTitle title) t0).title = t0.title ∨
            (editItem id (trimTitle title) t0).title = trimTitle title := by
          cases hc : (t0.id == id) <;> simp [editItem, hc]
        rcases he with he | he
        · rw [he]
          exact hs t0 ht0
        · rw [he]
          exact validTitle_trimTitle hg.1 (by omega)
  | clear =>
    show Inv (clearCompletedPure s)
    intro t ht
    exact hs t (List.mem_filter.mp ht).1
  | setF f =>
    show Inv ((setFilterPure s f).getD s)
    by_cases hc : validFilters.contains f = true
    · simp only [setFilterPure, if_pos hc, Option.getD_some]
      intro t ht
      exact hs t ht
    · simp only [setFilterPure, if_neg hc, Option.getD_none]
      exact hs
  | hydrate st sf =>
    show Inv (load st sf s)
    cases st with
    | none => intro t ht; exact hs t ht
    | some stv =>
      cases stv with
      | corrupt => intro t ht; exact absurd ht (List.not_mem_nil t)
      | nonArray => intro t ht; exact hs t ht
      | arr elems =>
        intro t ht
        have hmem : t ∈ elems.filterMap toTodo? :=
          (List.mem_insertionSort descCreated).mp ht
        obtain ⟨e, he, hte⟩ := List.mem_filterMap.mp hmem
        exact hop e he t hte

theorem inv_run_aux (ops : List Op) : ∀ s : State, Inv s →
    (∀ op ∈ ops, SafeOp op) → Inv (ops.foldl applyOp s) := by
  induction ops with
  | nil => intro s hs _; exact hs
  | cons op rest ih =>
    intro s hs h
    exact ih _ (inv_applyOp hs (h op (List.mem_cons_self op rest)))
      (fun o ho => h o (List.mem_cons_of_mem _ ho))

/-- C2 counterexample: the stored record `{id: "a", title: ""}` has a
string id and a string title, so `load` adopts it; the resulting state is
reachable from the empty default by one hydrate, yet its item's title is
empty — the claimed invariant fails under hydrate from arbitrary stored
data. -/
theorem title_invariant_counterexample :
    ¬ Inv (run [.hydrate (some (.arr [.obj (some "a") (some "") false none])) none]) := by
  decide

/-- C2 amended: in every state reachable from the empty default by Store
operations, every item's title is non-empty after trimming and at most 500
characters — provided each hydrate only adopts records whose titles
already satisfy the invariant (the code checks only that `id` and `title`
are strings, so hydrate from arbitrary stored data can violate it). -/
theorem title_invariant_amended (ops : List Op)
    (h : ∀ op ∈ ops, SafeOp op) : Inv (run ops) :=
  inv_run_aux ops defaultState
    (fun t ht => absurd ht (List.not_mem_nil t)) h

/-- Witness for the amended C2: a concrete create-then-toggle run from the
empty default satisfies the invariant. -/
theorem title_invariant_amended_witness :
    Inv (run [.add (.str " Buy milk ") "id1" 42, .toggle "id1"]) :=
  title_invariant_amended
    [.add (.str " Buy milk ") "id1" 42, .toggle "id1"]
    (by
      intro op hop
      rcases List.mem_cons.mp hop with h | h
      · subst h; trivial
      · rcases List.mem_cons.mp h with h2 | h2
        · subst h2; trivial
        · exact absurd h2 (List.not_mem_nil _))

end TodoApp
